import Mathlib

/-!
Shallow embedding of the playback controller of the ffmpeg-player repository
(source file audio-player.ts, the variant that carries the intentional-stop
latch) together with its FIFO track queue.  Every method of the controller is
modelled as a pure state transformer that also returns the ordered list of
primitive actions (event emissions, latch writes, resource-killing calls,
timer operations) the method performs, so that ordering and suppression
properties of the teardown protocol can be stated and proved.
-/

namespace FfmpegPlayer

/-- Audio format probed per track: channels, sample rate, bit depth
(audio-player.ts, getAudioMetadata). -/
structure AudioFormat where
  channels : Nat
  sampleRate : Nat
  bitDepth : Nat
deriving DecidableEq, Repr

/-- Payloads of the error objects the controller emits or receives. -/
inductive ErrKind where
  | fileNotFound (path : String)
  | probeFail (path : String)
  | decode (msg : String)
  | sink (code : Option String)
deriving DecidableEq, Repr

/-- Public events of the controller (spec section 6).  The source event named
end is modelled by the constructor `ended` because end is a Lean keyword. -/
inductive Event where
  | start (track : Option String)
  | progress (track : Option String) (elapsed : ℚ)
  | stop (track : Option String)
  | ended (track : Option String)
  | queueEnd
  | error (e : ErrKind)
deriving DecidableEq, Repr

/-- Primitive actions a controller method performs, in program order.
`setLatch` is a write to the `_isStoppingIntentionally` field, `killDecoder`
is `ffmpegCommand.kill("SIGKILL")`, `endSink` is `speaker.end()`,
`beginSession` marks the point in `play` where the session fields are
initialised for a resolvable track, and `schedulePlay` is a `setTimeout`
of a later `play` call. -/
inductive Action where
  | emit (e : Event)
  | setLatch (b : Bool)
  | stopTicker
  | startTicker
  | killDecoder
  | endSink
  | createSink (fmt : AudioFormat)
  | startDecoder (track : String) (fmt : AudioFormat)
  | beginSession (track : String)
  | schedulePlay (track : Option String) (delayMs : Nat)
  | removeAllListeners
deriving DecidableEq, Repr

/-- The controller state: the public and private fields of class Player
(audio-player.ts lines 60 to 75) that the playback state machine reads or
writes, plus the FIFO queue the controller holds a reference to.
`ffmpegCommand` records the track the live decoder was started on,
`speaker` the format the live sink was sized to, `progressInterval` whether
the progress ticker is armed.  `isStoppingIntentionally` is the source field
`_isStoppingIntentionally`. -/
structure Player where
  isPlaying : Bool
  isPaused : Bool
  currentTrack : Option String
  pausedTime : ℚ
  ffmpegCommand : Option String
  speaker : Option AudioFormat
  startTime : ℚ
  progressInterval : Bool
  isStoppingIntentionally : Bool
  queue : List String
deriving DecidableEq, Repr

/-- The external world `play` consults: file existence (fs.existsSync) and
the metadata probe (ffprobe), which either yields a format or fails. -/
structure Env where
  fileExists : String → Bool
  probe : String → Option AudioFormat

/-- `_cleanup` (audio-player.ts lines 356 to 377): stop the progress ticker,
kill the decoder if present, end the sink if present, then null the session
fields and reset the flags and the start time.  The queue, the paused time
and the latch are untouched. -/
def Player.cleanup (s : Player) : Player × List Action :=
  ({ s with progressInterval := false, ffmpegCommand := none, speaker := none,
            currentTrack := none, isPlaying := false, isPaused := false,
            startTime := 0 },
   (if s.progressInterval then [Action.stopTicker] else [])
     ++ (if s.ffmpegCommand.isSome then [Action.killDecoder] else [])
     ++ (if s.speaker.isSome then [Action.endSink] else []))

/-- `stop` (audio-player.ts lines 261 to 269): no-op when not playing;
otherwise emit the stop event, set the latch, then clean up. -/
def Player.stop (s : Player) : Player × List Action :=
  if s.isPlaying then
    let s₁ : Player := { s with isStoppingIntentionally := true }
    let r := Player.cleanup s₁
    (r.1, Action.emit (Event.stop s.currentTrack) :: Action.setLatch true :: r.2)
  else (s, [])

/-- `pause` (audio-player.ts lines 245 to 248): warns and delegates to
`stop`. -/
def Player.pause (s : Player) : Player × List Action :=
  Player.stop s

/-- `destroy` (audio-player.ts lines 379 to 383): clean up, then remove all
listeners. -/
def Player.destroy (s : Player) : Player × List Action :=
  let r := Player.cleanup s
  (r.1, r.2 ++ [Action.removeAllListeners])

/-- `skip` (audio-player.ts lines 271 to 275): stop, then schedule a fresh
`play()` after 100 ms. -/
def Player.skip (s : Player) : Player × List Action :=
  let r := Player.stop s
  (r.1, r.2 ++ [Action.schedulePlay none 100])

/-- `getCurrentProgress` (audio-player.ts lines 296 to 300), with the wall
clock passed explicitly. -/
def Player.getCurrentProgress (now : ℚ) (s : Player) : ℚ :=
  if s.isPlaying = false then 0
  else if s.isPaused then s.pausedTime / 1000
  else (now - s.startTime) / 1000

/-- `hasTrack` (audio-player.ts lines 302 to 304). -/
def Player.hasTrack (s : Player) : Bool :=
  s.currentTrack.isSome

/-- The sink open callback (audio-player.ts lines 188 to 193): anchor the
start time, emit start, arm the progress ticker (which first clears any
previous ticker). -/
def Player.speakerOpenHandler (now : ℚ) (s : Player) : Player × List Action :=
  ({ s with startTime := now, progressInterval := true },
   Action.emit (Event.start s.currentTrack)
     :: ((if s.progressInterval then [Action.stopTicker] else [])
          ++ [Action.startTicker]))

/-- The periodic progress tick (audio-player.ts lines 306 to 317): emit
progress while playing and not paused. -/
def Player.progressTick (now : ℚ) (s : Player) : Player × List Action :=
  if s.isPlaying ∧ s.isPaused = false then
    (s, [Action.emit (Event.progress s.currentTrack ((now - s.startTime) / 1000))])
  else (s, [])

/-- The error code Node raises for a write into an ended stream; the sink
error handler suppresses exactly this code during an intentional stop. -/
def writeAfterEndCode : String := "ERR_STREAM_WRITE_AFTER_END"

/-- The sink error callback (audio-player.ts lines 200 to 210): suppressed
when the latch is set and the code is the write-after-end signal; otherwise
emit error and clean up. -/
def Player.speakerErrorHandler (code : Option String) (s : Player) :
    Player × List Action :=
  if s.isStoppingIntentionally ∧ code = some writeAfterEndCode then (s, [])
  else
    let r := Player.cleanup s
    (r.1, Action.emit (Event.error (ErrKind.sink code)) :: r.2)

/-- The decoder error callback (audio-player.ts lines 217 to 229): suppressed
whenever the latch is set, and the latch is deliberately not reset there;
otherwise emit error and clean up. -/
def Player.ffmpegErrorHandler (msg : String) (s : Player) :
    Player × List Action :=
  if s.isStoppingIntentionally then (s, [])
  else
    let r := Player.cleanup s
    (r.1, Action.emit (Event.error (ErrKind.decode msg)) :: r.2)

/-- The decoder natural-end callback (audio-player.ts lines 230 to 234):
the track finished decoding normally, so the latch is reset. -/
def Player.ffmpegEndHandler (s : Player) : Player × List Action :=
  ({ s with isStoppingIntentionally := false }, [])

/-- `_handleTrackEnd`, the sink close callback (audio-player.ts lines 326 to
353): during an intentional stop do nothing further; on a natural end emit
the ended event for the finished track, clean up, then either pull the queue
head and schedule a delayed `play` of it, or emit queue-end. -/
def Player.handleTrackEnd (s : Player) : Player × List Action :=
  if s.isStoppingIntentionally then (s, [])
  else
    let finished := s.currentTrack
    let r := Player.cleanup s
    match r.1.queue with
    | [] =>
        (r.1, Action.emit (Event.ended finished) :: r.2 ++ [Action.emit Event.queueEnd])
    | n :: rest =>
        ({ r.1 with queue := rest },
         Action.emit (Event.ended finished) :: r.2 ++ [Action.schedulePlay (some n) 100])

/-- The part of `play` that runs once a resolvable track is in hand
(audio-player.ts lines 170 to 242): initialise the session fields, clear the
latch, then probe; on probe failure the catch emits error and cleans up, on
success the sink is created to the probed format and the decoder is started
and piped into it. -/
def Player.startSession (track : String) (env : Env) (s : Player) :
    Player × List Action :=
  let s₁ : Player := { s with currentTrack := some track, isPlaying := true,
                              isPaused := false, isStoppingIntentionally := false }
  match env.probe track with
  | none =>
      let r := Player.cleanup s₁
      (r.1, Action.beginSession track
              :: Action.emit (Event.error (ErrKind.probeFail track)) :: r.2)
  | some fmt =>
      ({ s₁ with speaker := some fmt, ffmpegCommand := some track },
       [Action.beginSession track, Action.createSink fmt,
        Action.startDecoder track fmt])

/-- The chain of recursive `play()` retries that pull from the queue
(audio-player.ts lines 155 to 168).  The list argument is the queue at entry;
the state queue field is kept equal to it at every call.  Empty queue: emit
queue-end.  Otherwise pop the head, clean up, and either start the session
when the file exists, or emit the file-not-found error and retry with the
rest of the queue. -/
def Player.playNextLoop (env : Env) : List String → Player → Player × List Action
  | [], s => (s, [Action.emit Event.queueEnd])
  | track :: rest, s =>
      let s₀ : Player := { s with queue := rest }
      let r₁ := Player.cleanup s₀
      if env.fileExists track then
        let r₂ := Player.startSession track env r₁.1
        (r₂.1, r₁.2 ++ r₂.2)
      else
        let r₂ := Player.playNextLoop env rest r₁.1
        (r₂.1, r₁.2
                 ++ [Action.emit (Event.error (ErrKind.fileNotFound track))]
                 ++ r₂.2)

/-- `play` (audio-player.ts lines 147 to 243): no-op when already playing;
with an explicit path, clean up and either start the session or emit the
file-not-found error and fall back to the queue; with no path, pull from the
queue (`playNextLoop`), emitting queue-end when it is empty. -/
def Player.play (fp : Option String) (env : Env) (s : Player) :
    Player × List Action :=
  if s.isPlaying then (s, [])
  else
    match fp with
    | some track =>
        let r₁ := Player.cleanup s
        if env.fileExists track then
          let r₂ := Player.startSession track env r₁.1
          (r₂.1, r₁.2 ++ r₂.2)
        else
          let r₂ := Player.playNextLoop env r₁.1.queue r₁.1
          (r₂.1, r₁.2
                   ++ [Action.emit (Event.error (ErrKind.fileNotFound track))]
                   ++ r₂.2)
    | none => Player.playNextLoop env s.queue s

/-- The three branches of `resume` (audio-player.ts lines 250 to 259). -/
inductive ResumeBranch where
  | fresh
  | replay
  | noop
deriving DecidableEq, Repr

/-- Which branch `resume` takes (audio-player.ts lines 250 to 259): fresh
playback when idle with no track referenced, replay of the referenced track
when idle with one, otherwise nothing. -/
def Player.resumeBranch (s : Player) : ResumeBranch :=
  if s.isPlaying = false ∧ s.currentTrack = none then ResumeBranch.fresh
  else if s.currentTrack ≠ none ∧ s.isPlaying = false then ResumeBranch.replay
  else ResumeBranch.noop

/-- `resume` (audio-player.ts lines 250 to 259). -/
def Player.resume (env : Env) (s : Player) : Player × List Action :=
  match Player.resumeBranch s with
  | ResumeBranch.fresh => Player.play none env s
  | ResumeBranch.replay => Player.play s.currentTrack env s
  | ResumeBranch.noop => (s, [])

/-- Recognisers for classes of actions, used to state counting properties. -/
def isStartEmit : Action → Bool
  | Action.emit (Event.start _) => true
  | _ => false

def isEndEmit : Action → Bool
  | Action.emit (Event.ended _) => true
  | _ => false

def isQueueEndEmit : Action → Bool
  | Action.emit Event.queueEnd => true
  | _ => false

def isErrorEmit : Action → Bool
  | Action.emit (Event.error _) => true
  | _ => false

def isSchedulePlayAct : Action → Bool
  | Action.schedulePlay _ _ => true
  | _ => false

/-- The resource-killing calls of the teardown protocol: the decoder kill
and the sink end. -/
def isKillAct : Action → Bool
  | Action.killDecoder => true
  | Action.endSink => true
  | _ => false

/-! Small facts about `cleanup`, shared by several proofs below. -/

@[simp] lemma cleanup_fst_latch (s : Player) :
    (Player.cleanup s).1.isStoppingIntentionally = s.isStoppingIntentionally := rfl

@[simp] lemma cleanup_fst_queue (s : Player) :
    (Player.cleanup s).1.queue = s.queue := rfl

@[simp] lemma cleanup_fst_isPlaying (s : Player) :
    (Player.cleanup s).1.isPlaying = false := rfl

@[simp] lemma cleanup_fst_currentTrack (s : Player) :
    (Player.cleanup s).1.currentTrack = none := rfl

@[simp] lemma cleanup_fst_ffmpegCommand (s : Player) :
    (Player.cleanup s).1.ffmpegCommand = none := rfl

@[simp] lemma cleanup_fst_speaker (s : Player) :
    (Player.cleanup s).1.speaker = none := rfl

@[simp] lemma cleanup_fst_progressInterval (s : Player) :
    (Player.cleanup s).1.progressInterval = false := rfl

/-- The teardown trace consists of timer and resource actions only, so any
recogniser that ignores those three actions filters it to nothing. -/
lemma cleanup_filter_eq_nil (s : Player) (p : Action → Bool)
    (h1 : p Action.stopTicker = false) (h2 : p Action.killDecoder = false)
    (h3 : p Action.endSink = false) :
    (Player.cleanup s).2.filter p = [] := by
  unfold Player.cleanup
  by_cases hA : s.progressInterval <;>
    by_cases hB : s.ffmpegCommand.isSome <;>
      by_cases hC : s.speaker.isSome <;>
        simp [hA, hB, hC, List.filter, h1, h2, h3]

/-! Claim theorems. -/

/-- C1: during `stop()` on a playing controller the intentional-stop latch is
set strictly before any resource-killing call is issued: every prefix of the
action trace of `stop` that contains a decoder kill or a sink end already
contains the `setLatch true` write. -/
theorem player_stop_latch_before_kill (s : Player) (h : s.isPlaying = true) :
    ∀ n, (∃ a ∈ (Player.stop s).2.take n, isKillAct a = true) →
      Action.setLatch true ∈ (Player.stop s).2.take n := by
  intro n hex
  simp only [Player.stop, h, if_true] at hex ⊢
  match n with
  | 0 => simp at hex
  | 1 => simp [List.take, isKillAct] at hex
  | Nat.succ (Nat.succ m) => simp [List.take]

/-- Witness for C1 at a concrete playing controller: taking the five-action
prefix of the stop trace, which contains the decoder kill. -/
theorem player_stop_latch_before_kill_witness :
    (Player.mk true false (some "a.mp3") 0 (some "a.mp3") (some ⟨2, 44100, 16⟩)
        0 true false ["b.mp3"]).isPlaying = true
    ∧ (∃ a ∈ (Player.stop (Player.mk true false (some "a.mp3") 0 (some "a.mp3")
        (some ⟨2, 44100, 16⟩) 0 true false ["b.mp3"])).2.take 5, isKillAct a = true)
    ∧ Action.setLatch true ∈ (Player.stop (Player.mk true false (some "a.mp3") 0
        (some "a.mp3") (some ⟨2, 44100, 16⟩) 0 true false ["b.mp3"])).2.take 5 :=
  ⟨rfl, by decide,
   player_stop_latch_before_kill _ rfl 5 (by decide)⟩

/-- C3: once `stop()` ran on a playing controller the latch is set, and on
any state with the latch set the decoder error callback, and the sink error
callback carrying the write-after-end code, are suppressed: no event is
emitted, no cleanup action runs, the state is unchanged. -/
theorem player_intentional_stop_suppression (s u : Player) (msg : String)
    (hs : s.isPlaying = true) (hu : u.isStoppingIntentionally = true) :
    ((Player.stop s).1.isStoppingIntentionally = true)
    ∧ Player.ffmpegErrorHandler msg u = (u, [])
    ∧ Player.speakerErrorHandler (some writeAfterEndCode) u = (u, []) := by
  refine ⟨?_, ?_, ?_⟩ <;>
    simp [Player.stop, Player.ffmpegErrorHandler, Player.speakerErrorHandler,
          hs, hu]

/-- Witness for C3 at a concrete playing controller and a concrete stopped
state with the latch set. -/
theorem player_intentional_stop_suppression_witness :
    (Player.mk true false (some "a.mp3") 0 none none 0 false false []).isPlaying = true
    ∧ (Player.mk false false none 0 none none 0 false true []).isStoppingIntentionally = true
    ∧ (((Player.stop (Player.mk true false (some "a.mp3") 0 none none 0 false false [])).1.isStoppingIntentionally = true)
        ∧ Player.ffmpegErrorHandler "boom"
            (Player.mk false false none 0 none none 0 false true [])
            = (Player.mk false false none 0 none none 0 false true [], [])
        ∧ Player.speakerErrorHandler (some writeAfterEndCode)
            (Player.mk false false none 0 none none 0 false true [])
            = (Player.mk false false none 0 none none 0 false true [], [])) :=
  ⟨rfl, rfl, player_intentional_stop_suppression _ _ "boom" rfl rfl⟩

/-- C5: `play()` while a track is already playing is a strict no-op: it
emits nothing, performs no action, and returns the state unchanged. -/
theorem player_play_noop_when_playing (fp : Option String) (env : Env)
    (s : Player) (h : s.isPlaying = true) :
    Player.play fp env s = (s, []) := by
  simp [Player.play, h]

/-- Witness for C5 at a concrete playing controller. -/
theorem player_play_noop_when_playing_witness :
    (Player.mk true false (some "a.mp3") 0 (some "a.mp3") none 0 true false ["b.mp3"]).isPlaying = true
    ∧ Player.play (some "c.mp3") ⟨fun _ => true, fun _ => none⟩
        (Player.mk true false (some "a.mp3") 0 (some "a.mp3") none 0 true false ["b.mp3"])
        = (Player.mk true false (some "a.mp3") 0 (some "a.mp3") none 0 true false ["b.mp3"], []) :=
  ⟨rfl, player_play_noop_when_playing (some "c.mp3") ⟨fun _ => true, fun _ => none⟩ _ rfl⟩

/-- C7: `stop()` on an idle controller is a strict no-op: no stop event, no
teardown action, state unchanged. -/
theorem player_stop_noop_when_idle (s : Player) (h : s.isPlaying = false) :
    Player.stop s = (s, []) := by
  simp [Player.stop, h]

/-- Witness for C7 at a concrete idle controller. -/
theorem player_stop_noop_when_idle_witness :
    (Player.mk false false none 0 none none 0 false false ["b.mp3"]).isPlaying = false
    ∧ Player.stop (Player.mk false false none 0 none none 0 false false ["b.mp3"])
        = (Player.mk false false none 0 none none 0 false false ["b.mp3"], []) :=
  ⟨rfl, player_stop_noop_when_idle _ rfl⟩

/-- C9: teardown is idempotent: a second `cleanup` immediately after a first
one leaves the state exactly as the first call left it, and performs no
further action. -/
theorem player_cleanup_idempotent (s : Player) :
    Player.cleanup (Player.cleanup s).1 = ((Player.cleanup s).1, []) := rfl

/-- C10: after `stop()`, `pause()` or `cleanup` completes on any state
satisfying the reachability invariant that an idle controller references no
track, the current track is cleared, so `hasTrack` is false,
`getCurrentProgress` is zero, and the replay branch of `resume` cannot be
taken. -/
theorem player_teardown_clears_track (s : Player) (now : ℚ)
    (hinv : s.isPlaying = false → s.currentTrack = none) :
    ((Player.stop s).1.currentTrack = none
       ∧ Player.hasTrack (Player.stop s).1 = false
       ∧ Player.getCurrentProgress now (Player.stop s).1 = 0
       ∧ Player.resumeBranch (Player.stop s).1 ≠ ResumeBranch.replay)
    ∧ ((Player.pause s).1.currentTrack = none
       ∧ Player.hasTrack (Player.pause s).1 = false
       ∧ Player.getCurrentProgress now (Player.pause s).1 = 0
       ∧ Player.resumeBranch (Player.pause s).1 ≠ ResumeBranch.replay)
    ∧ ((Player.cleanup s).1.currentTrack = none
       ∧ Player.hasTrack (Player.cleanup s).1 = false
       ∧ Player.getCurrentProgress now (Player.cleanup s).1 = 0
       ∧ Player.resumeBranch (Player.cleanup s).1 ≠ ResumeBranch.replay) := by
  cases hp : s.isPlaying with
  | true =>
      simp [Player.stop, Player.pause, Player.hasTrack,
            Player.getCurrentProgress, Player.resumeBranch, hp]
  | false =>
      have hct := hinv hp
      simp [Player.stop, Player.pause, Player.hasTrack,
            Player.getCurrentProgress, Player.resumeBranch, hp, hct]

/-- Witness for C10 at a concrete playing controller. -/
theorem player_teardown_clears_track_witness :
    ((Player.mk true false (some "a.mp3") 0 (some "a.mp3") none 7 true false []).isPlaying = false
       → (Player.mk true false (some "a.mp3") 0 (some "a.mp3") none 7 true false []).currentTrack = none)
    ∧ (((Player.stop (Player.mk true false (some "a.mp3") 0 (some "a.mp3") none 7 true false [])).1.currentTrack = none
       ∧ Player.hasTrack (Player.stop (Player.mk true false (some "a.mp3") 0 (some "a.mp3") none 7 true false [])).1 = false
       ∧ Player.getCurrentProgress 9 (Player.stop (Player.mk true false (some "a.mp3") 0 (some "a.mp3") none 7 true false [])).1 = 0
       ∧ Player.resumeBranch (Player.stop (Player.mk true false (some "a.mp3") 0 (some "a.mp3") none 7 true false [])).1 ≠ ResumeBranch.replay)
    ∧ ((Player.pause (Player.mk true false (some "a.mp3") 0 (some "a.mp3") none 7 true false [])).1.currentTrack = none
       ∧ Player.hasTrack (Player.pause (Player.mk true false (some "a.mp3") 0 (some "a.mp3") none 7 true false [])).1 = false
       ∧ Player.getCurrentProgress 9 (Player.pause (Player.mk true false (some "a.mp3") 0 (some "a.mp3") none 7 true false [])).1 = 0
       ∧ Player.resumeBranch (Player.pause (Player.mk true false (some "a.mp3") 0 (some "a.mp3") none 7 true false [])).1 ≠ ResumeBranch.replay)
    ∧ ((Player.cleanup (Player.mk true false (some "a.mp3") 0 (some "a.mp3") none 7 true false [])).1.currentTrack = none
       ∧ Player.hasTrack (Player.cleanup (Player.mk true false (some "a.mp3") 0 (some "a.mp3") none 7 true false [])).1 = false
       ∧ Player.getCurrentProgress 9 (Player.cleanup (Player.mk true false (some "a.mp3") 0 (some "a.mp3") none 7 true false [])).1 = 0
       ∧ Player.resumeBranch (Player.cleanup (Player.mk true false (some "a.mp3") 0 (some "a.mp3") none 7 true false [])).1 ≠ ResumeBranch.replay)) :=
  And.intro (fun h => by cases h)
    (player_teardown_clears_track _ 9 (fun h => by cases h))

/-- C2, counterexample: the decoder natural-end callback also clears the
intentional-stop latch, so `play()` is not the only operation that resets
it.  Concretely, on an idle state whose latch is set, the natural-end
handler leaves the latch cleared. -/
theorem player_latch_clear_counterexample :
    (Player.mk false false none 0 none none 0 false true []).isStoppingIntentionally = true
    ∧ (Player.ffmpegEndHandler
        (Player.mk false false none 0 none none 0 false true [])).1.isStoppingIntentionally
        = false :=
  ⟨rfl, rfl⟩

/-- In the queue-pulling retry chain of `play`, the latch can only become
cleared by reaching the session-begin point of a track whose file exists. -/
lemma playNextLoop_latch_clear_implies_resolvable (env : Env) (l : List String)
    (s : Player) (h : s.isStoppingIntentionally = true) :
    (Player.playNextLoop env l s).1.isStoppingIntentionally = false →
    ∃ t, Action.beginSession t ∈ (Player.playNextLoop env l s).2
           ∧ env.fileExists t = true := by
  induction l generalizing s with
  | nil =>
      intro hf
      rw [Player.playNextLoop] at hf
      simp only at hf
      rw [h] at hf
      cases hf
  | cons track rest ih =>
      intro hf
      by_cases he : env.fileExists track
      · refine ⟨track, ?_, he⟩
        rw [Player.playNextLoop]
        simp only [he, if_true]
        cases hp : env.probe track <;>
          simp [Player.startSession, hp]
      · rw [Player.playNextLoop] at hf ⊢
        simp only [he, if_false, Bool.false_eq_true] at hf ⊢
        have hlatch : (Player.cleanup { s with queue := rest }).1.isStoppingIntentionally = true := by
          simp [h]
        obtain ⟨t, hmem, hex⟩ := ih _ hlatch hf
        exact ⟨t, by simp [hmem], hex⟩

/-- In `play` as a whole, the latch can only become cleared by reaching the
session-begin point of a track whose file exists. -/
lemma play_latch_clear_implies_resolvable (fp : Option String) (env : Env)
    (s : Player) (h : s.isStoppingIntentionally = true) :
    (Player.play fp env s).1.isStoppingIntentionally = false →
    ∃ t, Action.beginSession t ∈ (Player.play fp env s).2
           ∧ env.fileExists t = true := by
  intro hf
  unfold Player.play at hf ⊢
  by_cases hp : s.isPlaying
  · simp only [hp, if_true] at hf; rw [h] at hf; cases hf
  · simp only [hp, if_false, Bool.false_eq_true] at hf ⊢
    match fp with
    | some track =>
        by_cases he : env.fileExists track
        · refine ⟨track, ?_, he⟩
          simp only [he, if_true]
          cases hq : env.probe track <;>
            simp [Player.startSession, hq]
        · simp only [he, if_false, Bool.false_eq_true] at hf ⊢
          have hlatch : (Player.cleanup s).1.isStoppingIntentionally = true := by
            simp [h]
          obtain ⟨t, hmem, hex⟩ :=
            playNextLoop_latch_clear_implies_resolvable env _ _ hlatch hf
          simp only [cleanup_fst_queue] at hmem
          refine ⟨t, ?_, hex⟩
          simp [hmem]
    | none =>
        exact playNextLoop_latch_clear_implies_resolvable env _ _ h hf

/-- C2, amended: the only operations that clear the intentional-stop latch
are `play()` upon reaching a resolvable track and the decoder natural-end
callback; every other method and callback leaves a set latch set, and any
`play` or `resume` run that ends with the latch cleared passed the
session-begin point of a track whose file exists. -/
theorem player_latch_cleared_only_by_play_or_natural_end (s : Player)
    (now : ℚ) (code : Option String) (msg : String) (env : Env)
    (fp : Option String) (h : s.isStoppingIntentionally = true) :
    ((Player.stop s).1.isStoppingIntentionally = true)
    ∧ ((Player.pause s).1.isStoppingIntentionally = true)
    ∧ ((Player.skip s).1.isStoppingIntentionally = true)
    ∧ ((Player.cleanup s).1.isStoppingIntentionally = true)
    ∧ ((Player.destroy s).1.isStoppingIntentionally = true)
    ∧ ((Player.handleTrackEnd s).1.isStoppingIntentionally = true)
    ∧ ((Player.speakerOpenHandler now s).1.isStoppingIntentionally = true)
    ∧ ((Player.speakerErrorHandler code s).1.isStoppingIntentionally = true)
    ∧ ((Player.ffmpegErrorHandler msg s).1.isStoppingIntentionally = true)
    ∧ ((Player.progressTick now s).1.isStoppingIntentionally = true)
    ∧ ((Player.play fp env s).1.isStoppingIntentionally = false →
         ∃ t, Action.beginSession t ∈ (Player.play fp env s).2
                ∧ env.fileExists t = true)
    ∧ ((Player.resume env s).1.isStoppingIntentionally = false →
         ∃ t, Action.beginSession t ∈ (Player.resume env s).2
                ∧ env.fileExists t = true) := by
  refine ⟨?_, ?_, ?_, ?_, ?_, ?_, ?_, ?_, ?_, ?_, ?_, ?_⟩
  · by_cases hp : s.isPlaying <;> simp [Player.stop, hp, h]
  · by_cases hp : s.isPlaying <;> simp [Player.pause, Player.stop, hp, h]
  · by_cases hp : s.isPlaying <;> simp [Player.skip, Player.stop, hp, h]
  · simp [h]
  · simp [Player.destroy, h]
  · simp [Player.handleTrackEnd, h]
  · simp [Player.speakerOpenHandler, h]
  · by_cases hc : code = some writeAfterEndCode <;>
      simp [Player.speakerErrorHandler, hc, h]
  · simp [Player.ffmpegErrorHandler, h]
  · by_cases hp : s.isPlaying ∧ s.isPaused = false <;>
      simp [Player.progressTick, hp, h]
  · exact play_latch_clear_implies_resolvable fp env s h
  · intro hf
    unfold Player.resume at hf ⊢
    cases hrb : Player.resumeBranch s with
    | fresh =>
        rw [hrb] at hf; simp only [hrb]
        exact play_latch_clear_implies_resolvable none env s h hf
    | replay =>
        rw [hrb] at hf; simp only [hrb]
        exact play_latch_clear_implies_resolvable s.currentTrack env s h hf
    | noop =>
        rw [hrb] at hf; simp only at hf; rw [h] at hf; cases hf

/-- Witness for the amended C2 at a concrete state with the latch set. -/
theorem player_latch_cleared_only_by_play_or_natural_end_witness :
    (Player.mk false false none 0 none none 0 false true ["q.mp3"]).isStoppingIntentionally = true
    ∧ (((Player.stop (Player.mk false false none 0 none none 0 false true ["q.mp3"])).1.isStoppingIntentionally = true)
    ∧ ((Player.pause (Player.mk false false none 0 none none 0 false true ["q.mp3"])).1.isStoppingIntentionally = true)
    ∧ ((Player.skip (Player.mk false false none 0 none none 0 false true ["q.mp3"])).1.isStoppingIntentionally = true)
    ∧ ((Player.cleanup (Player.mk false false none 0 none none 0 false true ["q.mp3"])).1.isStoppingIntentionally = true)
    ∧ ((Player.destroy (Player.mk false false none 0 none none 0 false true ["q.mp3"])).1.isStoppingIntentionally = true)
    ∧ ((Player.handleTrackEnd (Player.mk false false none 0 none none 0 false true ["q.mp3"])).1.isStoppingIntentionally = true)
    ∧ ((Player.speakerOpenHandler 3 (Player.mk false false none 0 none none 0 false true ["q.mp3"])).1.isStoppingIntentionally = true)
    ∧ ((Player.speakerErrorHandler none (Player.mk false false none 0 none none 0 false true ["q.mp3"])).1.isStoppingIntentionally = true)
    ∧ ((Player.ffmpegErrorHandler "boom" (Player.mk false false none 0 none none 0 false true ["q.mp3"])).1.isStoppingIntentionally = true)
    ∧ ((Player.progressTick 3 (Player.mk false false none 0 none none 0 false true ["q.mp3"])).1.isStoppingIntentionally = true)
    ∧ ((Player.play none ⟨fun _ => false, fun _ => none⟩ (Player.mk false false none 0 none none 0 false true ["q.mp3"])).1.isStoppingIntentionally = false →
         ∃ t, Action.beginSession t ∈ (Player.play none ⟨fun _ => false, fun _ => none⟩ (Player.mk false false none 0 none none 0 false true ["q.mp3"])).2
                ∧ (Env.mk (fun _ => false) (fun _ => none)).fileExists t = true)
    ∧ ((Player.resume ⟨fun _ => false, fun _ => none⟩ (Player.mk false false none 0 none none 0 false true ["q.mp3"])).1.isStoppingIntentionally = false →
         ∃ t, Action.beginSession t ∈ (Player.resume ⟨fun _ => false, fun _ => none⟩ (Player.mk false false none 0 none none 0 false true ["q.mp3"])).2
                ∧ (Env.mk (fun _ => false) (fun _ => none)).fileExists t = true)) :=
  ⟨rfl,
   player_latch_cleared_only_by_play_or_natural_end _ 3 none "boom"
     ⟨fun _ => false, fun _ => none⟩ none rfl⟩

/-- When every file is missing, the queue-pulling retry chain emits exactly
one file-not-found error per queue entry, in queue order, then one queue-end
as its final action, leaving the queue drained and the controller idle. -/
lemma playNextLoop_all_missing (env : Env) (hmiss : ∀ p, env.fileExists p = false)
    (l : List String) :
    ∀ (s : Player), s.queue = l → s.isPlaying = false →
    (Player.playNextLoop env l s).2.filter isErrorEmit
        = l.map (fun p => Action.emit (Event.error (ErrKind.fileNotFound p)))
    ∧ (Player.playNextLoop env l s).2.filter isQueueEndEmit
        = [Action.emit Event.queueEnd]
    ∧ (∃ pre, (Player.playNextLoop env l s).2 = pre ++ [Action.emit Event.queueEnd])
    ∧ (Player.playNextLoop env l s).1.queue = []
    ∧ (Player.playNextLoop env l s).1.isPlaying = false := by
  induction l with
  | nil =>
      intro s hq hp
      rw [Player.playNextLoop]
      exact ⟨rfl, rfl, ⟨[], rfl⟩, hq, hp⟩
  | cons track rest ih =>
      intro s hq hp
      obtain ⟨e1, e2, ⟨pre, hpre⟩, q1, p1⟩ :=
        ih (Player.cleanup { s with queue := rest }).1 rfl rfl
      rw [Player.playNextLoop]
      simp only [hmiss track, Bool.false_eq_true, if_false]
      refine ⟨?_, ?_, ?_, q1, p1⟩
      · rw [List.filter_append, List.filter_append,
            cleanup_filter_eq_nil _ _ rfl rfl rfl, e1]
        simp [isErrorEmit]
      · rw [List.filter_append, List.filter_append,
            cleanup_filter_eq_nil _ _ rfl rfl rfl, e2]
        simp [isQueueEndEmit]
      · refine ⟨(Player.cleanup { s with queue := rest }).2
                  ++ [Action.emit (Event.error (ErrKind.fileNotFound track))]
                  ++ pre, ?_⟩
        rw [hpre]
        simp

/-- C6: `play()` on a missing explicit path emits one error for that path and
retries with the next queue entry; when every file in sight is missing the
retries drain the whole queue, emitting one file-not-found error per entry in
order, and the run terminates with a single queue-end as its final action,
leaving the queue empty and the controller idle. -/
theorem player_missing_files_drain (env : Env) (s : Player) (t : String)
    (hmiss : ∀ p, env.fileExists p = false) (hp : s.isPlaying = false) :
    (Player.play (some t) env s).2.filter isErrorEmit
        = (t :: s.queue).map (fun p => Action.emit (Event.error (ErrKind.fileNotFound p)))
    ∧ (Player.play (some t) env s).2.filter isQueueEndEmit
        = [Action.emit Event.queueEnd]
    ∧ (∃ pre, (Player.play (some t) env s).2 = pre ++ [Action.emit Event.queueEnd])
    ∧ (Player.play (some t) env s).1.queue = []
    ∧ (Player.play (some t) env s).1.isPlaying = false := by
  obtain ⟨e1, e2, ⟨pre, hpre⟩, q1, p1⟩ :=
    playNextLoop_all_missing env hmiss s.queue (Player.cleanup s).1 rfl rfl
  unfold Player.play
  simp only [hp, Bool.false_eq_true, if_false, hmiss t, cleanup_fst_queue]
  refine ⟨?_, ?_, ?_, q1, p1⟩
  · rw [List.filter_append, List.filter_append,
        cleanup_filter_eq_nil _ _ rfl rfl rfl, e1]
    simp [isErrorEmit]
  · rw [List.filter_append, List.filter_append,
        cleanup_filter_eq_nil _ _ rfl rfl rfl, e2]
    simp [isQueueEndEmit]
  · refine ⟨(Player.cleanup s).2
              ++ [Action.emit (Event.error (ErrKind.fileNotFound t))] ++ pre, ?_⟩
    rw [hpre]
    simp

/-- Witness for C6: a concrete idle controller, a missing explicit path and a
queue of two further missing files. -/
theorem player_missing_files_drain_witness :
    (∀ p, (Env.mk (fun _ => false) (fun _ => none)).fileExists p = false)
    ∧ (Player.mk false false none 0 none none 0 false false ["x.mp3", "y.mp3"]).isPlaying = false
    ∧ ((Player.play (some "m.mp3") ⟨fun _ => false, fun _ => none⟩
          (Player.mk false false none 0 none none 0 false false ["x.mp3", "y.mp3"])).2.filter isErrorEmit
        = ("m.mp3" :: (Player.mk false false none 0 none none 0 false false ["x.mp3", "y.mp3"]).queue).map
            (fun p => Action.emit (Event.error (ErrKind.fileNotFound p)))
    ∧ (Player.play (some "m.mp3") ⟨fun _ => false, fun _ => none⟩
          (Player.mk false false none 0 none none 0 false false ["x.mp3", "y.mp3"])).2.filter isQueueEndEmit
        = [Action.emit Event.queueEnd]
    ∧ (∃ pre, (Player.play (some "m.mp3") ⟨fun _ => false, fun _ => none⟩
          (Player.mk false false none 0 none none 0 false false ["x.mp3", "y.mp3"])).2
            = pre ++ [Action.emit Event.queueEnd])
    ∧ (Player.play (some "m.mp3") ⟨fun _ => false, fun _ => none⟩
          (Player.mk false false none 0 none none 0 false false ["x.mp3", "y.mp3"])).1.queue = []
    ∧ (Player.play (some "m.mp3") ⟨fun _ => false, fun _ => none⟩
          (Player.mk false false none 0 none none 0 false false ["x.mp3", "y.mp3"])).1.isPlaying = false) :=
  ⟨fun _ => rfl, rfl,
   player_missing_files_drain ⟨fun _ => false, fun _ => none⟩ _ "m.mp3"
     (fun _ => rfl) rfl⟩

/-- A `play` on a resolvable track that probes successfully emits no start
event itself (the start event belongs to the sink open callback) and leaves
that track as the current one. -/
lemma play_resolvable_facts (track : String) (env : Env) (s : Player)
    (hp : s.isPlaying = false) (he : env.fileExists track = true)
    (hpr : (env.probe track).isSome = true) :
    (Player.play (some track) env s).2.filter isStartEmit = []
    ∧ (Player.play (some track) env s).1.currentTrack = some track := by
  obtain ⟨fmt, hfmt⟩ := Option.isSome_iff_exists.mp hpr
  unfold Player.play
  simp only [hp, Bool.false_eq_true, if_false, he, if_true]
  refine ⟨?_, ?_⟩
  · rw [List.filter_append, cleanup_filter_eq_nil _ _ rfl rfl rfl]
    simp [Player.startSession, hfmt, isStartEmit, List.filter]
  · simp [Player.startSession, hfmt]

/-- The sink open callback emits exactly one start event, carrying the
current track. -/
lemma speakerOpenHandler_one_start (now : ℚ) (u : Player) :
    (Player.speakerOpenHandler now u).2.filter isStartEmit
      = [Action.emit (Event.start u.currentTrack)] := by
  by_cases hA : u.progressInterval <;>
    simp [Player.speakerOpenHandler, hA, isStartEmit, List.filter]

/-- C4: the sink close callback with the latch clear emits exactly one ended
event for the finished track and tears the resources down; then exactly one
of the two continuations happens: with a non-empty queue the head is pulled
and a delayed play of it is scheduled (and no queue-end is emitted), and that
play, on an existing probeable file, emits no start itself while the
subsequent sink open callback emits exactly one start for that track; with an
empty queue exactly one queue-end is emitted and no play is scheduled. -/
theorem player_natural_end_advance (s : Player) (t : String)
    (hl : s.isStoppingIntentionally = false) (ht : s.currentTrack = some t) :
    (Player.handleTrackEnd s).2.filter isEndEmit
        = [Action.emit (Event.ended (some t))]
    ∧ (Player.handleTrackEnd s).1.ffmpegCommand = none
    ∧ (Player.handleTrackEnd s).1.speaker = none
    ∧ (Player.handleTrackEnd s).1.isPlaying = false
    ∧ (Player.handleTrackEnd s).1.progressInterval = false
    ∧ (s.queue = [] →
         (Player.handleTrackEnd s).2.filter isQueueEndEmit
             = [Action.emit Event.queueEnd]
           ∧ (Player.handleTrackEnd s).2.filter isSchedulePlayAct = [])
    ∧ (∀ n rest, s.queue = n :: rest →
         (Player.handleTrackEnd s).2.filter isSchedulePlayAct
             = [Action.schedulePlay (some n) 100]
           ∧ (Player.handleTrackEnd s).2.filter isQueueEndEmit = []
           ∧ (Player.handleTrackEnd s).1.queue = rest
           ∧ ∀ (env : Env) (now : ℚ),
               env.fileExists n = true → (env.probe n).isSome = true →
               ((Player.play (some n) env (Player.handleTrackEnd s).1).2.filter isStartEmit = [])
                 ∧ ((Player.speakerOpenHandler now
                       (Player.play (some n) env (Player.handleTrackEnd s).1).1).2.filter isStartEmit
                      = [Action.emit (Event.start (some n))])) := by
  cases hq : s.queue with
  | nil =>
      have hte : Player.handleTrackEnd s
          = ((Player.cleanup s).1,
             Action.emit (Event.ended s.currentTrack)
               :: (Player.cleanup s).2 ++ [Action.emit Event.queueEnd]) := by
        unfold Player.handleTrackEnd
        simp [hl, hq]
      rw [hte]
      refine ⟨?_, rfl, rfl, rfl, rfl, ?_, ?_⟩
      · simp [List.filter_append, List.filter_cons, isEndEmit,
              cleanup_filter_eq_nil s isEndEmit rfl rfl rfl, ht]
      · intro _
        constructor
        · simp [List.filter_append, List.filter_cons, isQueueEndEmit,
                cleanup_filter_eq_nil s isQueueEndEmit rfl rfl rfl]
        · simp [List.filter_append, List.filter_cons, isSchedulePlayAct,
                cleanup_filter_eq_nil s isSchedulePlayAct rfl rfl rfl]
      · intro n rest hqc
        cases hqc
  | cons n rest =>
      have hte : Player.handleTrackEnd s
          = ({ (Player.cleanup s).1 with queue := rest },
             Action.emit (Event.ended s.currentTrack)
               :: (Player.cleanup s).2 ++ [Action.schedulePlay (some n) 100]) := by
        unfold Player.handleTrackEnd
        simp [hl, hq]
      rw [hte]
      refine ⟨?_, rfl, rfl, rfl, rfl, ?_, ?_⟩
      · simp [List.filter_append, List.filter_cons, isEndEmit,
              cleanup_filter_eq_nil s isEndEmit rfl rfl rfl, ht]
      · intro hqnil
        cases hqnil
      · intro n₂ rest₂ hqc
        injection hqc with hn hrest
        subst hn
        subst hrest
        refine ⟨?_, ?_, rfl, ?_⟩
        · simp [List.filter_append, List.filter_cons, isSchedulePlayAct,
                cleanup_filter_eq_nil s isSchedulePlayAct rfl rfl rfl]
        · simp [List.filter_append, List.filter_cons, isQueueEndEmit,
                cleanup_filter_eq_nil s isQueueEndEmit rfl rfl rfl]
        · intro env now he hpr
          obtain ⟨h1, h2⟩ := play_resolvable_facts n env
            { (Player.cleanup s).1 with queue := rest } rfl he hpr
          refine ⟨h1, ?_⟩
          rw [speakerOpenHandler_one_start, h2]

/-- Witness for C4: a concrete finished track with one further track queued,
an environment in which that track exists and probes successfully. -/
theorem player_natural_end_advance_witness :
    (Player.mk true false (some "a.mp3") 0 (some "a.mp3") (some ⟨2, 44100, 16⟩)
        0 true false ["b.mp3"]).isStoppingIntentionally = false
    ∧ (Player.mk true false (some "a.mp3") 0 (some "a.mp3") (some ⟨2, 44100, 16⟩)
        0 true false ["b.mp3"]).currentTrack = some "a.mp3"
    ∧ ((Player.handleTrackEnd (Player.mk true false (some "a.mp3") 0 (some "a.mp3")
          (some ⟨2, 44100, 16⟩) 0 true false ["b.mp3"])).2.filter isEndEmit
        = [Action.emit (Event.ended (some "a.mp3"))]
    ∧ (Player.handleTrackEnd (Player.mk true false (some "a.mp3") 0 (some "a.mp3")
          (some ⟨2, 44100, 16⟩) 0 true false ["b.mp3"])).2.filter isSchedulePlayAct
        = [Action.schedulePlay (some "b.mp3") 100]
    ∧ (Player.handleTrackEnd (Player.mk true false (some "a.mp3") 0 (some "a.mp3")
          (some ⟨2, 44100, 16⟩) 0 true false ["b.mp3"])).1.queue = []) := by
  have h := player_natural_end_advance
    (Player.mk true false (some "a.mp3") 0 (some "a.mp3") (some ⟨2, 44100, 16⟩)
      0 true false ["b.mp3"]) "a.mp3" rfl rfl
  obtain ⟨h1, _, _, _, _, _, hcons⟩ := h
  obtain ⟨h2, _, h3, _⟩ := hcons "b.mp3" [] rfl
  exact ⟨rfl, rfl, h1, h2, h3⟩

/-- Modelled from the spec: the class AudioQueue (source file audio-queue.ts)
is not present in the repository snapshot; only its interface name
IAudioQueue, its callers and its README contract are.  Spec section 4.1: an
ordered FIFO sequence of track references; add appends to the tail, getNext
removes and returns the head or an absent value, peek returns the head
without removing, list returns a snapshot of the current order, clear
removes all entries. -/
structure AudioQueue where
  items : List String
deriving DecidableEq, Repr

/-- Modelled from the spec: append to tail, no capacity bound. -/
def AudioQueue.add (q : AudioQueue) (ref : String) : AudioQueue :=
  ⟨q.items ++ [ref]⟩

/-- Modelled from the spec: remove and return the head, or an absent value
when empty, never throwing (the function is total). -/
def AudioQueue.getNext (q : AudioQueue) : Option String × AudioQueue :=
  match q.items with
  | [] => (none, q)
  | h :: t => (some h, ⟨t⟩)

/-- Modelled from the spec: return the head without removing. -/
def AudioQueue.peek (q : AudioQueue) : Option String :=
  q.items.head?

/-- Modelled from the spec: a snapshot of the current order.  In this pure
model a snapshot is by construction independent of the queue. -/
def AudioQueue.list (q : AudioQueue) : List String :=
  q.items

/-- Modelled from the spec: remove all entries. -/
def AudioQueue.clear (_ : AudioQueue) : AudioQueue :=
  ⟨[]⟩

/-- Append a whole sequence of references through `add`. -/
def AudioQueue.addAll (q : AudioQueue) (refs : List String) : AudioQueue :=
  refs.foldl AudioQueue.add q

/-- Pop at most `fuel` entries through `getNext`, in order. -/
def AudioQueue.drainAux : Nat → AudioQueue → List String
  | 0, _ => []
  | fuel + 1, q =>
      match AudioQueue.getNext q with
      | (none, _) => []
      | (some r, q₂) => r :: AudioQueue.drainAux fuel q₂

/-- The sequence `getNext` yields when called until the queue is empty. -/
def AudioQueue.drain (q : AudioQueue) : List String :=
  AudioQueue.drainAux q.items.length q

lemma AudioQueue.drainAux_eq (fuel : Nat) :
    ∀ q : AudioQueue, q.items.length ≤ fuel → AudioQueue.drainAux fuel q = q.items := by
  induction fuel with
  | zero =>
      intro q hle
      cases hq : q.items with
      | nil => rfl
      | cons h t => rw [hq] at hle; cases hle
  | succ n ih =>
      intro q hle
      cases hq : q.items with
      | nil =>
          cases q
          subst hq
          rfl
      | cons h t =>
          cases q
          subst hq
          rw [AudioQueue.drainAux]
          simp only [AudioQueue.getNext]
          rw [ih ⟨t⟩ (by simpa using Nat.le_of_succ_le_succ (by simpa using hle))]

/-- Draining a queue through `getNext` returns exactly its contents in
order. -/
lemma AudioQueue.drain_eq (q : AudioQueue) : AudioQueue.drain q = q.items :=
  AudioQueue.drainAux_eq q.items.length q (Nat.le_refl _)

/-- Adding a sequence of references appends them to the stored order. -/
lemma AudioQueue.addAll_items (refs : List String) :
    ∀ q : AudioQueue, (AudioQueue.addAll q refs).items = q.items ++ refs := by
  induction refs with
  | nil => intro q; simp [AudioQueue.addAll]
  | cons r rs ih =>
      intro q
      unfold AudioQueue.addAll at ih ⊢
      simp only [List.foldl_cons]
      rw [ih (AudioQueue.add q r)]
      simp [AudioQueue.add]

/-- C8: the queue is FIFO: after any sequence of adds, `getNext` yields the
entries in insertion order until it returns the absent value; `peek` agrees
with the head `getNext` would return while leaving the queue unchanged (the
queue `getNext` leaves behind is exactly the tail); `getNext` on the empty
queue returns the absent value and the queue itself, and is total, never
throwing; `list` is the stored order, its length is the number of remaining
entries, and it tracks `add` and `clear` faithfully. -/
theorem audioQueue_fifo (q : AudioQueue) (refs : List String) (r : String) :
    AudioQueue.drain (AudioQueue.addAll q refs) = q.items ++ refs
    ∧ AudioQueue.peek q = (AudioQueue.getNext q).1
    ∧ (AudioQueue.getNext q).2.items = q.items.tail
    ∧ AudioQueue.getNext ⟨[]⟩ = (none, ⟨[]⟩)
    ∧ AudioQueue.list q = q.items
    ∧ (AudioQueue.list q).length = q.items.length
    ∧ AudioQueue.list (AudioQueue.add q r) = AudioQueue.list q ++ [r]
    ∧ (AudioQueue.clear q).items = [] := by
  refine ⟨?_, ?_, ?_, rfl, rfl, rfl, rfl, rfl⟩
  · rw [AudioQueue.drain_eq, AudioQueue.addAll_items]
  · cases hq : q.items <;> simp [AudioQueue.peek, AudioQueue.getNext, hq]
  · cases hq : q.items <;> simp [AudioQueue.getNext, hq]

end FfmpegPlayer
